import Mathlib

/-!
Verification of the webdav2s3 gateway (Starhes/webdav2s3).

The development shallowly embeds the repository source in Lean:

- The SigV4 engine of src/s3/signature.ts (the current revision of the
  file): canonical request construction, the HMAC-SHA256 key-derivation
  chain, and the verification tail. The platform cryptographic
  primitives (crypto.subtle HMAC and SHA-256) are parameters of the
  embedding: every theorem quantifies over them, since the repository
  never inspects their output beyond hex formatting.
- The presigned URL builder of src/s3/presign.ts.
- The WebDAV client of src/webdav/client.ts (ensureParentDirs, propfind
  status handling) as a pure function of an upstream status oracle, with
  the issued calls collected in a trace.
- The S3 operation handlers of src/s3/operations.ts (PutObject,
  DeleteObject, ListBucket) over the same oracle model.

JavaScript string builtins used by the source (encodeURIComponent,
trim, regex whitespace collapse, toLowerCase on ASCII header names,
localeCompare, stable Array.prototype.sort) are modelled explicitly;
each model carries a comment naming the builtin it follows.
-/

/-! ## Models of JavaScript string and encoding builtins -/

/-- The characters matched by the JavaScript regex class backslash-s,
restricted to ASCII: space, tab, line feed, carriage return, vertical
tab, form feed. -/
def jsWsChar (c : Char) : Bool :=
  c = ' ' ∨ c = Char.ofNat 9 ∨ c = Char.ofNat 10 ∨ c = Char.ofNat 13 ∨
  c = Char.ofNat 11 ∨ c = Char.ofNat 12

/-- Model of String.prototype.trim: strip leading and trailing
whitespace. -/
def jsTrim (s : String) : String :=
  String.mk (((s.data.dropWhile (jsWsChar ·)).reverse.dropWhile (jsWsChar ·)).reverse)

/-- Core of the regex replace of one-or-more whitespace by a single
space: the flag records whether the previous character was part of a
whitespace run already rewritten. -/
def collapseRuns : List Char → Bool → List Char
  | [], _ => []
  | c :: cs, prev =>
    if jsWsChar c then
      if prev then collapseRuns cs true else ' ' :: collapseRuns cs true
    else c :: collapseRuns cs false

/-- The signed-header value normalisation of signature.ts: trim, then
collapse each internal whitespace run to one space. -/
def normalizeHeaderValue (v : String) : String :=
  String.mk (collapseRuns (jsTrim v).data false)

/-- Prefix test on strings via their character lists (the comparisons
the source performs with startsWith). -/
def strStartsWith (s pre : String) : Bool := pre.data.isPrefixOf s.data

/-- Suffix test on strings via their character lists (the comparisons
the source performs with endsWith). -/
def strEndsWith (s suf : String) : Bool := suf.data.isSuffixOf s.data

/-- Model of String.prototype.toLowerCase on ASCII strings: the
per-character ASCII lowering (header names and the strings the source
lowercases are ASCII). -/
def strToLower (s : String) : String := String.mk (s.data.map Char.toLower)

/-- Split of a character list at every occurrence of a separator
character, keeping empty pieces, as the JS split with a one-character
separator does. -/
def splitOnChar (sep : Char) : List Char → List (List Char)
  | [] => [[]]
  | c :: cs =>
    let r := splitOnChar sep cs
    if c = sep then [] :: r
    else
      match r with
      | [] => [[c]]
      | h :: t => (c :: h) :: t

/-- String split on a one-character separator. -/
def strSplitOnChar (sep : Char) (s : String) : List String :=
  (splitOnChar sep s.data).map String.mk

/-- Replace every occurrence of a non-empty pattern, left to right and
without overlap, as a global JS regex replace of a literal pattern
does. The fuel argument (instantiated with the input length) only
drives termination. -/
def replaceAllAux (patt repl : List Char) : List Char → Nat → List Char
  | l, 0 => l
  | [], _ + 1 => []
  | c :: cs, fuel + 1 =>
    if patt.isPrefixOf (c :: cs) then
      repl ++ replaceAllAux patt repl ((c :: cs).drop patt.length) fuel
    else c :: replaceAllAux patt repl cs fuel

/-- Global replacement of a literal pattern in a string. -/
def strReplace (s patt repl : String) : String :=
  String.mk (replaceAllAux patt.data repl.data s.data s.data.length)

/-- Digit-string parser: the number the source obtains from the decimal
fields of a date string. -/
def digitsToNat (l : List Char) : Option Nat :=
  if l ≠ [] ∧ l.all Char.isDigit then
    some (l.foldl (fun acc c => acc * 10 + (c.toNat - 48)) 0)
  else none

/-- Decimal parse of a string of digits. -/
def strToNatOpt (s : String) : Option Nat := digitsToNat s.data

/-- UTF-8 encoding of one character (the bytes TextEncoder produces). -/
def utf8EncodeChar (c : Char) : List Nat :=
  let n := c.toNat
  if n < 0x80 then [n]
  else if n < 0x800 then [0xC0 + n / 0x40, 0x80 + n % 0x40]
  else if n < 0x10000 then
    [0xE0 + n / 0x1000, 0x80 + n / 0x40 % 0x40, 0x80 + n % 0x40]
  else
    [0xF0 + n / 0x40000, 0x80 + n / 0x1000 % 0x40, 0x80 + n / 0x40 % 0x40, 0x80 + n % 0x40]

/-- Model of TextEncoder().encode: the UTF-8 bytes of a string. -/
def utf8Bytes (s : String) : List Nat :=
  s.data.foldr (fun c acc => utf8EncodeChar c ++ acc) []

/-- Uppercase hexadecimal digit, as produced by percent-encoding. -/
def hexDigitUpper (n : Nat) : Char :=
  (String.mk "0123456789ABCDEF".data).data.getD n '0'

/-- Percent-encoding of one byte, uppercase hex as encodeURIComponent
emits it. -/
def percentEncodeByte (b : Nat) : String :=
  String.mk ['%', hexDigitUpper (b / 16 % 16), hexDigitUpper (b % 16)]

/-- The characters encodeURIComponent leaves unescaped. -/
def encodeURIComponentUnreserved (c : Char) : Bool :=
  c.isAlpha ∨ c.isDigit ∨
  c = '-' ∨ c = '_' ∨ c = '.' ∨ c = '!' ∨ c = '~' ∨ c = '*' ∨
  c = Char.ofNat 39 ∨ c = '(' ∨ c = ')'

/-- Model of the JavaScript encodeURIComponent builtin: unreserved
characters pass through, everything else becomes percent-encoded UTF-8
bytes with uppercase hex. -/
def jsEncodeURIComponent (s : String) : String :=
  s.data.foldr
    (fun c acc =>
      (if encodeURIComponentUnreserved c then String.mk [c]
       else String.join ((utf8EncodeChar c).map percentEncodeByte)) ++ acc)
    ""

/-- uriEncode of signature.ts and presign.ts: encodeURIComponent, then
re-encode the five characters AWS additionally escapes, and optionally
undo the encoding of the slash. -/
def uriEncode (str : String) (encodeSlash : Bool) : String :=
  let encoded :=
    strReplace (strReplace (strReplace (strReplace (strReplace
      (jsEncodeURIComponent str) "!" "%21")
      (String.mk [Char.ofNat 39]) "%27") "(" "%28") ")" "%29") "*" "%2A"
  if !encodeSlash then strReplace (strReplace encoded "%2F" "/") "%2f" "/" else encoded

/-- Integer comparison result in the style of a JS comparator. -/
def natCmp (a b : Nat) : Int :=
  if a < b then -1 else if b < a then 1 else 0

/-- Lexicographic comparison of code sequences. -/
def lexCompare : List Nat → List Nat → Int
  | [], [] => 0
  | [], _ :: _ => -1
  | _ :: _, [] => 1
  | a :: as, b :: bs => if a = b then lexCompare as bs else natCmp a b

/-- Rank used to break primary ties in the collation model: lowercase
letters sort before uppercase ones. -/
def caseRank (c : Char) : Nat := if c.isUpper then 1 else 0

/-- Model of String.prototype.localeCompare under the default (root)
collation, adequate for ASCII alphanumeric strings: the primary pass
compares case-folded code points, and ties are broken with lowercase
before uppercase. This is a model of a host builtin; note that it is
not the byte order (for example it places a lowercase a before an
uppercase B). -/
def localeCompare (a b : String) : Int :=
  let p := lexCompare (a.data.map (fun c => c.toLower.toNat)) (b.data.map (fun c => c.toLower.toNat))
  if p = 0 then lexCompare (a.data.map caseRank) (b.data.map caseRank) else p

/-- Plain code-point comparison (for UTF-8 strings this coincides with
byte-lexicographic order). -/
def codePointCompare (a b : String) : Int :=
  lexCompare (a.data.map Char.toNat) (b.data.map Char.toNat)

/-- Stable insertion of an element behind every strictly smaller one:
the insertion step of the stable-sort model below. -/
def jsSortInsert (cmp : α → α → Int) (a : α) : List α → List α
  | [] => [a]
  | b :: bs => if cmp b a < 0 then b :: jsSortInsert cmp a bs else a :: b :: bs

/-- Model of Array.prototype.sort with a comparator: a stable sort
(insertion sort here; the ECMAScript specification requires stability,
so any consistent comparator yields this unique output order). -/
def jsSort (cmp : α → α → Int) : List α → List α
  | [] => []
  | a :: as => jsSortInsert cmp a (jsSort cmp as)

theorem length_jsSortInsert (cmp : α → α → Int) (a : α) (l : List α) :
    (jsSortInsert cmp a l).length = l.length + 1 := by
  induction l with
  | nil => rfl
  | cons b bs ih =>
    simp only [jsSortInsert]
    split
    · simpa [List.length_cons] using ih
    · simp [List.length_cons]

theorem length_jsSort (cmp : α → α → Int) (l : List α) :
    (jsSort cmp l).length = l.length := by
  induction l with
  | nil => rfl
  | cons a as ih => simp [jsSort, length_jsSortInsert, ih]

/-! ## SigV4 engine (src/s3/signature.ts, current revision) -/

/-- Hex of one byte as arrayBufferToHex renders it: toString(16) in
lowercase padded on the left to two digits. -/
def byteToHex (b : Nat) : String :=
  let ds := Nat.toDigits 16 b
  String.mk (if ds.length = 1 then '0' :: ds else ds)

/-- arrayBufferToHex of signature.ts: lowercase hex of a byte
sequence. -/
def arrayBufferToHex (bytes : List Nat) : String :=
  String.join (bytes.map byteToHex)

/-- hmacSha256 with a string key: the source encodes the key with
TextEncoder before calling the platform HMAC, which the parameter hmac
stands for (key bytes, then message bytes). -/
def hmacSha256Str (hmac : List Nat → List Nat → List Nat) (key : String) (message : String) : List Nat :=
  hmac (utf8Bytes key) (utf8Bytes message)

/-- getSigningKey of signature.ts: the four-level HMAC-SHA256 chain. -/
def getSigningKey (hmac : List Nat → List Nat → List Nat)
    (secretKey dateStamp region service : String) : List Nat :=
  let kDate := hmacSha256Str hmac ("AWS4" ++ secretKey) dateStamp
  let kRegion := hmac kDate (utf8Bytes region)
  let kService := hmac kRegion (utf8Bytes service)
  let kSigning := hmac kService (utf8Bytes "aws4_request")
  kSigning

/-- createCanonicalRequest of signature.ts: the canonical headers block
argument already carries its trailing newline, so it is concatenated
directly with the signed-headers list before the newline join. -/
def createCanonicalRequest (method canonicalUri canonicalQueryStr canonicalHeaders signedHeaders payloadHash : String) : String :=
  String.intercalate "\n"
    [method, canonicalUri, canonicalQueryStr, canonicalHeaders ++ signedHeaders, payloadHash]

/-- sha256 of signature.ts applied to a string: platform digest (the
parameter) rendered as lowercase hex. -/
def sha256Hex (sha256Bytes : List Nat → List Nat) (message : String) : String :=
  arrayBufferToHex (sha256Bytes (utf8Bytes message))

/-- createStringToSign of signature.ts. -/
def createStringToSign (sha256Bytes : List Nat → List Nat)
    (algorithm requestDateTime credentialScope canonicalRequest : String) : String :=
  String.intercalate "\n"
    [algorithm, requestDateTime, credentialScope, sha256Hex sha256Bytes canonicalRequest]

/-- Month token of an RFC-7231 date, one-based. -/
def monthNum : String → Option Nat
  | "Jan" => some 1 | "Feb" => some 2 | "Mar" => some 3 | "Apr" => some 4
  | "May" => some 5 | "Jun" => some 6 | "Jul" => some 7 | "Aug" => some 8
  | "Sep" => some 9 | "Oct" => some 10 | "Nov" => some 11 | "Dec" => some 12
  | _ => none

/-- Days in a month of the proleptic Gregorian calendar. -/
def daysInMonth (year month : Nat) : Nat :=
  if month = 2 then
    if year % 4 = 0 ∧ (year % 100 ≠ 0 ∨ year % 400 = 0) then 29 else 28
  else if month = 4 ∨ month = 6 ∨ month = 9 ∨ month = 11 then 30
  else 31

/-- Two-digit zero-padded decimal, as the padStart(2, 0) calls in
convertToAwsDateFormat produce. -/
def pad2 (n : Nat) : String :=
  if n < 10 then "0" ++ toString n else toString n

/-- convertToAwsDateFormat of signature.ts. The host Date parser is
modelled on RFC-7231 IMF-fixdate inputs (the format of the Date
header): a weekday token with a comma, a two-digit day, a month name,
a four-digit year, a colon-separated time, and the literal GMT. Inputs
outside that shape, or with out-of-range fields, are treated as
unparseable and yield none, as an invalid Date does in the source. -/
def convertToAwsDateFormat (dateStr : String) : Option String :=
  match strSplitOnChar ' ' dateStr with
  | [wd, dayStr, monStr, yearStr, timeStr, tz] =>
    if strEndsWith wd "," ∧ tz = "GMT" ∧ dayStr.length = 2 ∧ yearStr.length = 4 then
      match strToNatOpt dayStr, monthNum monStr, strToNatOpt yearStr, strSplitOnChar ':' timeStr with
      | some day, some month, some year, [hStr, mStr, sStr] =>
        if hStr.length = 2 ∧ mStr.length = 2 ∧ sStr.length = 2 then
          match strToNatOpt hStr, strToNatOpt mStr, strToNatOpt sStr with
          | some h, some m, some s =>
            if 1 ≤ day ∧ day ≤ daysInMonth year month ∧ h < 24 ∧ m < 60 ∧ s < 60 then
              some (toString year ++ pad2 month ++ pad2 day ++ "T" ++ pad2 h ++ pad2 m ++ pad2 s ++ "Z")
            else none
          | _, _, _ => none
        else none
      | _, _, _, _ => none
    else none
  | _ => none

/-- JavaScript truthiness of a nullable string: null and the empty
string are falsy. -/
def truthy : Option String → Bool
  | none => false
  | some s => s ≠ ""

/-- The date-resolution block of verifySignature (signature.ts): use
x-amz-date as-is when present, otherwise convert the Date header,
rejecting when the conversion fails or when neither header is
present. -/
def resolveRequestDateTime (amzDate dateHeader : Option String) : Except String String :=
  if truthy amzDate then .ok (amzDate.getD "")
  else if truthy dateHeader then
    match convertToAwsDateFormat (dateHeader.getD "") with
    | none => .error "Invalid Date header format"
    | some s => .ok s
  else .error "Missing date header"

/-- The canonical-headers loop of verifySignature: one line per signed
header name, lowercased and joined to the normalised value with a
colon; a missing header aborts verification. -/
def buildCanonicalHeaders (getHeader : String → Option String) : List String → Except String (List String)
  | [] => .ok []
  | n :: ns =>
    match getHeader n with
    | none => .error ("Missing signed header: " ++ n)
    | some v =>
      match buildCanonicalHeaders getHeader ns with
      | .error e => .error e
      | .ok rest => .ok ((strToLower n ++ ":" ++ normalizeHeaderValue v) :: rest)

/-- The canonical headers block: lines joined by newlines with one
trailing newline appended, as the source builds it. -/
def canonicalHeadersString (lines : List String) : String :=
  String.intercalate "\n" lines ++ "\n"

/-- The canonical query string of verifySignature: entries sorted with
the localeCompare comparator, each key and value passed through
uriEncode, joined as key=value pairs with ampersands. -/
def canonicalQueryString (params : List (String × String)) : String :=
  String.intercalate "&"
    ((jsSort (fun x y => localeCompare x.1 y.1) params).map
      (fun p => uriEncode p.1 true ++ "=" ++ uriEncode p.2 true))

/-- The canonical query string as the specification describes it:
parameters sorted by key in byte-lexicographic (code point) order.
Stated only for comparison with canonicalQueryString, which follows the
source. -/
def byteLexQueryString (params : List (String × String)) : String :=
  String.intercalate "&"
    ((jsSort (fun x y => codePointCompare x.1 y.1) params).map
      (fun p => uriEncode p.1 true ++ "=" ++ uriEncode p.2 true))

/-- The canonical URI of verifySignature: uriEncode of the decoded path
with slashes kept, defaulting to a slash when empty. -/
def canonicalUriOf (decodedPath : String) : String :=
  let u := uriEncode decodedPath false
  if u = "" then "/" else u

/-- The payload hash selection of verifySignature: the explicit body
hash if truthy, else the x-amz-content-sha256 header, else the literal
UNSIGNED-PAYLOAD. -/
def payloadHashOf (bodyHash contentSha : Option String) : String :=
  if truthy bodyHash then bodyHash.getD ""
  else if truthy contentSha then contentSha.getD ""
  else "UNSIGNED-PAYLOAD"

/-- Parsed Authorization header components (types.ts
SignatureComponents). -/
structure SignatureComponents where
  algorithm : String
  credential : String
  signedHeaders : List String
  signature : String
  accessKeyId : String
  dateStamp : String
  region : String
  service : String

/-- The environment bindings the verifier reads (types.ts Env,
restricted to the fields signature verification uses). -/
structure Env where
  S3_ACCESS_KEY_ID : String
  S3_SECRET_ACCESS_KEY : String
  S3_REGION : String

/-- The request data verifySignature consults: method, the decoded URL
path, the query parameters in insertion order, and a header lookup. -/
structure S3Request where
  method : String
  decodedPath : String
  query : List (String × String)
  getHeader : String → Option String

/-- Outcome of verifySignature: the valid flag and the optional error
string (the debug payload attached on mismatch is not modelled). -/
structure VerifyResult where
  valid : Bool
  error : Option String
deriving DecidableEq, Repr

/-- The credential scope string of verifySignature. -/
def credentialScopeOf (comps : SignatureComponents) : String :=
  comps.dateStamp ++ "/" ++ comps.region ++ "/" ++ comps.service ++ "/aws4_request"

/-- The canonical request verifySignature builds from the live
request. -/
def canonicalRequestOfRequest (comps : SignatureComponents) (req : S3Request)
    (bodyHash : Option String) (lines : List String) : String :=
  createCanonicalRequest req.method (canonicalUriOf req.decodedPath)
    (canonicalQueryString req.query) (canonicalHeadersString lines)
    (String.intercalate ";" comps.signedHeaders)
    (payloadHashOf bodyHash (req.getHeader "x-amz-content-sha256"))

/-- The signature verifySignature recomputes: HMAC of the string to
sign under the derived signing key, rendered as lowercase hex. -/
def calculatedSignature (hmac : List Nat → List Nat → List Nat)
    (sha256Bytes : List Nat → List Nat) (env : Env) (comps : SignatureComponents)
    (req : S3Request) (bodyHash : Option String) (requestDateTime : String)
    (lines : List String) : String :=
  arrayBufferToHex
    (hmac
      (getSigningKey hmac env.S3_SECRET_ACCESS_KEY comps.dateStamp comps.region comps.service)
      (utf8Bytes
        (createStringToSign sha256Bytes comps.algorithm requestDateTime
          (credentialScopeOf comps) (canonicalRequestOfRequest comps req bodyHash lines))))

/-- verifySignature of signature.ts, from the point where the
Authorization header has been parsed into components (the regex parse
and the upstream null checks happen before these guards in the
source). The platform HMAC and SHA-256 digests are parameters. -/
def verifySignature (hmac : List Nat → List Nat → List Nat)
    (sha256Bytes : List Nat → List Nat) (comps : SignatureComponents)
    (req : S3Request) (env : Env) (bodyHash : Option String) : VerifyResult :=
  if comps.accessKeyId ≠ env.S3_ACCESS_KEY_ID then ⟨false, some "Invalid access key"⟩
  else if comps.region ≠ env.S3_REGION then ⟨false, some "Invalid region"⟩
  else if comps.service ≠ "s3" then ⟨false, some "Invalid service"⟩
  else
    match resolveRequestDateTime (req.getHeader "x-amz-date") (req.getHeader "date") with
    | .error e => ⟨false, some e⟩
    | .ok requestDateTime =>
      match buildCanonicalHeaders req.getHeader comps.signedHeaders with
      | .error e => ⟨false, some e⟩
      | .ok lines =>
        if calculatedSignature hmac sha256Bytes env comps req bodyHash requestDateTime lines ≠ comps.signature then
          ⟨false, some "Signature mismatch"⟩
        else ⟨true, none⟩

/-! ## Presigned URL builder (src/s3/presign.ts) -/

/-- createPresignedUrl of presign.ts. The wall-clock timestamp (the
amzDate string the source derives from Date.now) and the platform
crypto primitives are parameters; everything else follows the source
line by line. -/
def createPresignedUrl (hmac : List Nat → List Nat → List Nat)
    (sha256Bytes : List Nat → List Nat)
    (accessKeyId secretAccessKey region bucket key : String)
    (expiresIn : Nat) (amzDate : String) : String :=
  let host := bucket ++ ".s3." ++ region ++ ".amazonaws.com"
  let dateStamp := amzDate.take 8
  let canonicalQueryParams := String.intercalate "&"
    [ "X-Amz-Algorithm=AWS4-HMAC-SHA256",
      "X-Amz-Credential=" ++ accessKeyId ++ "/" ++ dateStamp ++ "/" ++ region ++ "/s3/aws4_request",
      "X-Amz-Date=" ++ amzDate,
      "X-Amz-Expires=" ++ toString expiresIn,
      "X-Amz-SignedHeaders=host" ]
  let canonicalUri := "/" ++ String.intercalate "/" ((strSplitOnChar '/' key).map (fun part => uriEncode part true))
  let canonicalHeaders := "host:" ++ host ++ "\n"
  let payloadHash := "UNSIGNED-PAYLOAD"
  let canonicalRequest := String.intercalate "\n"
    ["GET", canonicalUri, canonicalQueryParams, canonicalHeaders, "host", payloadHash]
  let credentialScope := dateStamp ++ "/" ++ region ++ "/s3/aws4_request"
  let stringToSign := String.intercalate "\n"
    ["AWS4-HMAC-SHA256", amzDate, credentialScope, sha256Hex sha256Bytes canonicalRequest]
  let signingKey := getSigningKey hmac secretAccessKey dateStamp region "s3"
  let signature := arrayBufferToHex (hmac signingKey (utf8Bytes stringToSign))
  "https://" ++ host ++ canonicalUri ++ "?" ++ canonicalQueryParams ++ "&X-Amz-Signature=" ++ signature

/-! ## WebDAV client model (src/webdav/client.ts) -/

/-- One WebDAV call issued by a handler, recorded in order. -/
inductive DavCall where
  | head (path : String)
  | mkcol (path : String)
  | put (path : String)
deriving DecidableEq, Repr

/-- Upstream status oracle: the HTTP status the WebDAV server returns
for each verb and path. -/
structure DavEnv where
  headStatus : String → Nat
  mkcolStatus : String → Nat
  putStatus : String → Nat

/-- Response.ok of the fetch API: status in the 2xx range. -/
def statusOk (s : Nat) : Bool := 200 ≤ s ∧ s ≤ 299

/-- The split and filter(Boolean) of ensureParentDirs. -/
def splitPathParts (path : String) : List String :=
  (strSplitOnChar '/' path).filter (fun p => p ≠ "")

/-- The loop body of ensureParentDirs (client.ts): walk every path
component except the last, HEAD each ancestor, and on a non-ok HEAD try
MKCOL; a failing MKCOL with status other than 405 only appends a
warning. Returns the calls issued and the warned-about paths. -/
def ensureParentDirsLoop (env : DavEnv) (currentPath : String) :
    List String → List DavCall × List String
  | [] => ([], [])
  | [_] => ([], [])
  | p :: q :: rest =>
    let cur := currentPath ++ "/" ++ p
    let probe := cur ++ "/"
    let (callsHere, warnsHere) :=
      if statusOk (env.headStatus probe) then ([DavCall.head probe], [])
      else
        let mk := env.mkcolStatus probe
        ([DavCall.head probe, DavCall.mkcol probe],
          if ¬ statusOk mk ∧ mk ≠ 405 then [cur] else [])
    let (tailCalls, tailWarns) := ensureParentDirsLoop env cur (q :: rest)
    (callsHere ++ tailCalls, warnsHere ++ tailWarns)

/-- ensureParentDirs of client.ts. -/
def ensureParentDirs (env : DavEnv) (path : String) : List DavCall × List String :=
  ensureParentDirsLoop env "" (splitPathParts path)

/-- propfind of client.ts, as a function of the upstream status and the
resources the XML parser would produce from the body: a non-ok status
of 404 yields an empty listing, any other non-ok status throws. -/
def propfindResult (status : Nat) (parsed : List α) : Except String (List α) :=
  if statusOk status then .ok parsed
  else if status = 404 then .ok []
  else .error "PROPFIND failed"

/-! ## S3 operation handlers (src/s3/operations.ts) -/

/-- An S3 response reduced to what the claims consult: HTTP status and
the S3 error code, if any. -/
structure S3Response where
  status : Nat
  errorCode : Option String
deriving DecidableEq, Repr

/-- buildWebDAVPath of operations.ts (JavaScript truthiness: the empty
string is falsy). -/
def buildWebDAVPath (bucket key : String) : String :=
  if bucket = "" then (if key = "" then "/" else key)
  else if key = "" then bucket ++ "/"
  else bucket ++ "/" ++ key

/-- handlePutObject of operations.ts over the oracle model: reject a
missing body, run ensureParentDirs, then PUT the target path; a PUT
status that is neither ok nor 201 nor 204 yields InternalError,
anything else a 200 with a fresh ETag. Returns the WebDAV calls issued
in order and the response. -/
def handlePutObject (env : DavEnv) (hasBody : Bool) (bucket key : String) :
    List DavCall × S3Response :=
  if !hasBody then ([], ⟨500, some "InternalError"⟩)
  else
    let webdavPath := buildWebDAVPath bucket key
    let calls := (ensureParentDirs env webdavPath).1
    let ps := env.putStatus webdavPath
    let resp : S3Response :=
      if ¬ statusOk ps ∧ ps ≠ 201 ∧ ps ≠ 204 then ⟨500, some "InternalError"⟩
      else ⟨200, none⟩
    (calls ++ [DavCall.put webdavPath], resp)

/-- handleDeleteObject of operations.ts: a DELETE status that is
neither ok nor 404 yields InternalError, otherwise a 204 with no
body. -/
def handleDeleteObject (deleteStatus : Nat) : S3Response :=
  if ¬ statusOk deleteStatus ∧ deleteStatus ≠ 404 then ⟨500, some "InternalError"⟩
  else ⟨204, none⟩

/-! ## Listing translation (handleListBucket of src/s3/operations.ts) -/

/-- A PROPFIND resource record (types.ts WebDAVResource, with the
date kept opaque). -/
structure WebDAVResource where
  href : String
  isCollection : Bool
  contentLength : Nat
  lastModified : String
  etag : String
deriving DecidableEq, Repr

/-- An S3 object entry (types.ts S3Object, date kept opaque). -/
structure S3Object where
  key : String
  lastModified : String
  etag : String
  size : Nat
  storageClass : String
deriving DecidableEq, Repr

/-- Model of the pathname of a WHATWG URL for an absolute http or
https URL that is already normalised: the part from the first slash
after the authority, cut at a query or fragment, defaulting to a
single slash. -/
def urlPathname (u : String) : String :=
  let afterScheme :=
    if strStartsWith u "https://" then u.drop 8
    else if strStartsWith u "http://" then u.drop 7
    else u
  let rest := afterScheme.data.dropWhile (fun c => c ≠ '/' ∧ c ≠ '?' ∧ c ≠ '#')
  let path := String.mk (rest.takeWhile (fun c => c ≠ '?' ∧ c ≠ '#'))
  if strStartsWith path "/" then path else "/"

/-- The href-to-path step of the handleListBucket loop: full URLs and
relative paths go through the URL parser, absolute paths are used
as-is. -/
def hrefToUrlPath (origin href : String) : String :=
  if strStartsWith href "http://" ∨ strStartsWith href "https://" then urlPathname href
  else if strStartsWith href "/" then href
  else urlPathname (origin ++ "/" ++ href)

/-- The key computation of the handleListBucket loop: strip a leading
slash, then a leading bucket-name segment when present. -/
def resourceKey (bucket origin : String) (r : WebDAVResource) : String :=
  let urlPath := hrefToUrlPath origin r.href
  let key := if strStartsWith urlPath "/" then urlPath.drop 1 else urlPath
  if strStartsWith key (bucket ++ "/") then key.drop (bucket.length + 1) else key

/-- The directory key of the delimiter branch: the resource key with a
trailing slash ensured. -/
def dirKeyOf (key : String) : String :=
  if strEndsWith key "/" then key else key ++ "/"

/-- The common-prefix candidate a resource produces, if any: only
collections reached with a truthy delimiter yield one. -/
def prefixCandidate (bucket origin delimiter : String) (r : WebDAVResource) : Option String :=
  if delimiter ≠ "" ∧ r.isCollection then some (dirKeyOf (resourceKey bucket origin r)) else none

/-- The accumulator of the handleListBucket loop: contents, common
prefixes in first-seen order, and the seen-prefix set (modelled as a
list consulted for membership). -/
structure ListState where
  contents : List S3Object
  commonPrefixes : List String
  seenPrefixes : List String
deriving Repr

/-- The body of the for-loop of handleListBucket, one resource at a
time: a collection under a truthy delimiter contributes its directory
key to commonPrefixes when unseen; a non-collection contributes an
object; a collection without delimiter contributes nothing. -/
def listStep (bucket origin delimiter : String) (st : ListState) (r : WebDAVResource) : ListState :=
  let key := resourceKey bucket origin r
  if delimiter ≠ "" ∧ r.isCollection then
    let dirKey := dirKeyOf key
    if dirKey ∈ st.seenPrefixes then st
    else
      { st with
        seenPrefixes := dirKey :: st.seenPrefixes,
        commonPrefixes := st.commonPrefixes ++ [dirKey] }
  else if r.isCollection then st
  else
    { st with
      contents := st.contents ++ [⟨key, r.lastModified, r.etag, r.contentLength, "STANDARD"⟩] }

/-- The translation phase of handleListBucket: drop the first resource
(the queried collection itself) and fold the loop body over the
rest. -/
def translateResources (bucket origin delimiter : String)
    (resources : List WebDAVResource) : ListState :=
  (resources.drop 1).foldl (listStep bucket origin delimiter) ⟨[], [], []⟩

/-- The ListBucketResult record of types.ts (the prefix query parameter
is stored in the field prefixParam). -/
structure ListBucketResult where
  name : String
  prefixParam : String
  delimiter : String
  maxKeys : Nat
  isTruncated : Bool
  contents : List S3Object
  commonPrefixes : List String
deriving DecidableEq, Repr

/-- The contents comparator of handleListBucket: localeCompare on
keys. -/
def keyCmp (a b : S3Object) : Int := localeCompare a.key b.key

/-- handleListBucket of operations.ts over the oracle model: the
upstream PROPFIND status and the resources its parser would yield are
inputs; the max-keys query parameter arrives already parsed (absent
means the literal default 1000 of the source). Returns the HTTP status
and the ListBucketResult on success. -/
def handleListBucket (bucket pfx delimiter : String) (maxKeysParam : Option Nat)
    (upstreamStatus : Nat) (parsed : List WebDAVResource) (origin : String) :
    Nat × Option ListBucketResult :=
  let maxKeys := maxKeysParam.getD 1000
  match propfindResult upstreamStatus parsed with
  | .error _ => (500, none)
  | .ok resources =>
    let st := translateResources bucket origin delimiter resources
    let sorted := jsSort keyCmp st.contents
    let limitedContents := sorted.take maxKeys
    let isTruncated := decide (sorted.length > maxKeys)
    (200, some ⟨bucket, pfx, delimiter, maxKeys, isTruncated, limitedContents, st.commonPrefixes⟩)

/-- First-seen deduplication relative to an already-seen list: the
order-preserving set semantics the specification ascribes to
commonPrefixes. -/
def firstSeenAux (seen : List String) : List String → List String
  | [] => []
  | a :: as => if a ∈ seen then firstSeenAux seen as else a :: firstSeenAux (a :: seen) as

/-- First-seen deduplication of a list of prefix strings. -/
def firstSeen (l : List String) : List String := firstSeenAux [] l

/-! ## Lemmas about the listing translation -/

theorem listStep_no_candidate (bucket origin delimiter : String) (st : ListState)
    (r : WebDAVResource)
    (h : prefixCandidate bucket origin delimiter r = none) :
    (listStep bucket origin delimiter st r).commonPrefixes = st.commonPrefixes ∧
    (listStep bucket origin delimiter st r).seenPrefixes = st.seenPrefixes := by
  by_cases hc : delimiter ≠ "" ∧ r.isCollection = true
  · simp [prefixCandidate, hc] at h
  · by_cases hcoll : r.isCollection = true
    · have hd : delimiter = "" := by
        by_contra hd
        exact hc ⟨hd, hcoll⟩
      simp [listStep, hd, hcoll]
    · simp [listStep, hc, hcoll]

theorem listStep_candidate (bucket origin delimiter : String) (st : ListState)
    (r : WebDAVResource) (p : String)
    (h : prefixCandidate bucket origin delimiter r = some p) :
    listStep bucket origin delimiter st r =
      (if p ∈ st.seenPrefixes then st
       else { st with seenPrefixes := p :: st.seenPrefixes,
                      commonPrefixes := st.commonPrefixes ++ [p] }) := by
  by_cases hc : delimiter ≠ "" ∧ r.isCollection = true
  · have hp : p = dirKeyOf (resourceKey bucket origin r) := by
      simp [prefixCandidate, hc] at h
      exact h.symm
    subst hp
    simp [listStep, hc]
  · simp [prefixCandidate, hc] at h

theorem foldl_commonPrefixes (bucket origin delimiter : String) :
    ∀ (rs : List WebDAVResource) (st : ListState),
      (rs.foldl (listStep bucket origin delimiter) st).commonPrefixes =
        st.commonPrefixes ++
          firstSeenAux st.seenPrefixes (rs.filterMap (prefixCandidate bucket origin delimiter)) := by
  intro rs
  induction rs with
  | nil => intro st; simp [firstSeenAux]
  | cons r rs ih =>
    intro st
    rcases hc : prefixCandidate bucket origin delimiter r with _ | p
    · have hstep := listStep_no_candidate bucket origin delimiter st r hc
      simp only [List.foldl_cons, List.filterMap_cons, hc]
      rw [ih, hstep.1, hstep.2]
    · have hstep := listStep_candidate bucket origin delimiter st r p hc
      simp only [List.foldl_cons, List.filterMap_cons, hc]
      by_cases hmem : p ∈ st.seenPrefixes
      · rw [hstep]
        simp only [hmem, if_pos, ite_true]
        rw [ih]
        simp [firstSeenAux, hmem]
      · rw [hstep]
        simp only [hmem, ite_false, if_neg, not_false_iff]
        rw [ih]
        simp [firstSeenAux, hmem, List.append_assoc]

theorem firstSeenAux_nodup : ∀ (l seen : List String),
    (firstSeenAux seen l).Nodup ∧ ∀ x ∈ firstSeenAux seen l, x ∉ seen := by
  intro l
  induction l with
  | nil => intro seen; simp [firstSeenAux]
  | cons a as ih =>
    intro seen
    by_cases hmem : a ∈ seen
    · simpa [firstSeenAux, hmem] using ih seen
    · have h1 := ih (a :: seen)
      refine ⟨?_, ?_⟩
      · simp only [firstSeenAux, hmem, ite_false, if_neg, not_false_iff]
        refine List.nodup_cons.mpr ⟨?_, h1.1⟩
        intro hin
        exact (h1.2 a hin) (List.mem_cons_self a seen)
      · intro x hx
        simp only [firstSeenAux, hmem, ite_false, if_neg, not_false_iff] at hx
        rcases List.mem_cons.mp hx with hxa | hxtail
        · subst hxa; exact hmem
        · intro hxseen
          exact (h1.2 x hxtail) (List.mem_cons_of_mem a hxseen)

/-- C7: in the ListBucket translation every resource after the excluded
first entry contributes to at most one of contents and commonPrefixes
(one object, one common prefix, or nothing, never both), and the
commonPrefixes list retains the prefix strings in first-seen order with
exact-string deduplication, so a given prefix appears at most once no
matter how many resources produced it. -/
theorem listBucket_partition_claim :
    (∀ (bucket origin delimiter : String) (st : ListState) (r : WebDAVResource),
      (∃ obj, listStep bucket origin delimiter st r =
          { st with contents := st.contents ++ [obj] }) ∨
      (∃ p, listStep bucket origin delimiter st r =
          { st with commonPrefixes := st.commonPrefixes ++ [p],
                    seenPrefixes := p :: st.seenPrefixes }) ∨
      listStep bucket origin delimiter st r = st) ∧
    (∀ (bucket origin delimiter : String) (resources : List WebDAVResource),
      (translateResources bucket origin delimiter resources).commonPrefixes =
        firstSeen ((resources.drop 1).filterMap (prefixCandidate bucket origin delimiter)) ∧
      (translateResources bucket origin delimiter resources).commonPrefixes.Nodup) := by
  constructor
  · intro bucket origin delimiter st r
    by_cases hc : delimiter ≠ "" ∧ r.isCollection = true
    · by_cases hmem : dirKeyOf (resourceKey bucket origin r) ∈ st.seenPrefixes
      · right; right; simp [listStep, hc, hmem]
      · right; left
        exact ⟨dirKeyOf (resourceKey bucket origin r), by simp [listStep, hc, hmem]⟩
    · by_cases hcoll : r.isCollection = true
      · right; right
        have hd : delimiter = "" := by
          by_contra hd
          exact hc ⟨hd, hcoll⟩
        simp [listStep, hd, hcoll]
      · left
        refine ⟨⟨resourceKey bucket origin r, r.lastModified, r.etag, r.contentLength, "STANDARD"⟩, ?_⟩
        simp [listStep, hc, hcoll]
    
  · intro bucket origin delimiter resources
    have hfold := foldl_commonPrefixes bucket origin delimiter (resources.drop 1) ⟨[], [], []⟩
    constructor
    · simpa [translateResources, firstSeen] using hfold
    · have := (firstSeenAux_nodup
        ((resources.drop 1).filterMap (prefixCandidate bucket origin delimiter)) []).1
      have heq : (translateResources bucket origin delimiter resources).commonPrefixes =
          firstSeen ((resources.drop 1).filterMap (prefixCandidate bucket origin delimiter)) := by
        simpa [translateResources, firstSeen] using hfold
      rw [heq]
      exact this

theorem listStep_file_contents (bucket origin delimiter : String) (st : ListState)
    (r : WebDAVResource) (h : r.isCollection = false) :
    (listStep bucket origin delimiter st r).contents =
      st.contents ++ [⟨resourceKey bucket origin r, r.lastModified, r.etag, r.contentLength, "STANDARD"⟩] := by
  simp [listStep, h]

theorem foldl_files_contents_length (bucket origin delimiter : String)
    (r : WebDAVResource) (h : r.isCollection = false) :
    ∀ (n : Nat) (st : ListState),
      ((List.replicate n r).foldl (listStep bucket origin delimiter) st).contents.length =
        st.contents.length + n := by
  intro n
  induction n with
  | zero => intro st; simp
  | succ k ih =>
    intro st
    rw [List.replicate_succ, List.foldl_cons, ih]
    rw [listStep_file_contents bucket origin delimiter st r h]
    simp [Nat.add_comm, Nat.add_left_comm]

theorem propfindResult_ok (parsed : List α) (status : Nat) (h : statusOk status = true) :
    propfindResult status parsed = Except.ok parsed := by
  simp [propfindResult, h]

/-- A directory resource used by the boundary instances. -/
def dirRes : WebDAVResource := ⟨"/b/", true, 0, "", ""⟩

/-- A file resource used by the boundary instances. -/
def fileRes : WebDAVResource := ⟨"/b/k.txt", false, 1, "", ""⟩

/-- C6: in the ListBucket result isTruncated is true exactly when the
number of translated objects exceeds maxKeys (1000 when the max-keys
parameter is absent), contents is the first maxKeys entries of the
sorted object list, and commonPrefixes is returned uncapped; at the
boundary, 1001 objects under defaults give 1000 contents entries with
isTruncated true, and 1000 objects give isTruncated false. -/
theorem listBucket_truncation_claim :
    (∀ (bucket pfx delimiter : String) (maxKeysParam : Option Nat)
        (upstreamStatus : Nat) (parsed : List WebDAVResource) (origin : String)
        (resources : List WebDAVResource),
      propfindResult upstreamStatus parsed = Except.ok resources →
      handleListBucket bucket pfx delimiter maxKeysParam upstreamStatus parsed origin =
        (200, some
          ⟨bucket, pfx, delimiter, maxKeysParam.getD 1000,
            decide ((translateResources bucket origin delimiter resources).contents.length >
              maxKeysParam.getD 1000),
            (jsSort keyCmp (translateResources bucket origin delimiter resources).contents).take
              (maxKeysParam.getD 1000),
            (translateResources bucket origin delimiter resources).commonPrefixes⟩)) ∧
    ((handleListBucket "b" "" "" none 207 (dirRes :: List.replicate 1001 fileRes) "").2.map
        (fun r => (r.contents.length, r.isTruncated)) = some (1000, true)) ∧
    ((handleListBucket "b" "" "" none 207 (dirRes :: List.replicate 1000 fileRes) "").2.map
        (fun r => (r.contents.length, r.isTruncated)) = some (1000, false)) := by
  have hgen : ∀ (bucket pfx delimiter : String) (maxKeysParam : Option Nat)
      (upstreamStatus : Nat) (parsed : List WebDAVResource) (origin : String)
      (resources : List WebDAVResource),
      propfindResult upstreamStatus parsed = Except.ok resources →
      handleListBucket bucket pfx delimiter maxKeysParam upstreamStatus parsed origin =
        (200, some
          ⟨bucket, pfx, delimiter, maxKeysParam.getD 1000,
            decide ((translateResources bucket origin delimiter resources).contents.length >
              maxKeysParam.getD 1000),
            (jsSort keyCmp (translateResources bucket origin delimiter resources).contents).take
              (maxKeysParam.getD 1000),
            (translateResources bucket origin delimiter resources).commonPrefixes⟩) := by
    intro bucket pfx delimiter maxKeysParam upstreamStatus parsed origin resources hok
    simp only [handleListBucket, hok]
    rw [length_jsSort]
  refine ⟨hgen, ?_, ?_⟩
  · have hok := propfindResult_ok (dirRes :: List.replicate 1001 fileRes) 207 (by decide)
    rw [hgen "b" "" "" none 207 (dirRes :: List.replicate 1001 fileRes) "" _ hok]
    have hlen : (translateResources "b" "" ""
        (dirRes :: List.replicate 1001 fileRes)).contents.length = 1001 :=
      (foldl_files_contents_length "b" "" "" fileRes rfl 1001 ⟨[], [], []⟩).trans
        (Nat.zero_add 1001)
    have h1 : (List.take 1000 (jsSort keyCmp (translateResources "b" "" ""
        (dirRes :: List.replicate 1001 fileRes)).contents)).length = 1000 := by
      rw [List.length_take, length_jsSort, hlen]; decide
    have h2 : decide ((translateResources "b" "" ""
        (dirRes :: List.replicate 1001 fileRes)).contents.length > 1000) = true := by
      rw [hlen]; decide
    dsimp only [Option.map, Option.getD]
    rw [h1, h2]
  · have hok := propfindResult_ok (dirRes :: List.replicate 1000 fileRes) 207 (by decide)
    rw [hgen "b" "" "" none 207 (dirRes :: List.replicate 1000 fileRes) "" _ hok]
    have hlen : (translateResources "b" "" ""
        (dirRes :: List.replicate 1000 fileRes)).contents.length = 1000 :=
      (foldl_files_contents_length "b" "" "" fileRes rfl 1000 ⟨[], [], []⟩).trans
        (Nat.zero_add 1000)
    have h1 : (List.take 1000 (jsSort keyCmp (translateResources "b" "" ""
        (dirRes :: List.replicate 1000 fileRes)).contents)).length = 1000 := by
      rw [List.length_take, length_jsSort, hlen]; decide
    have h2 : decide ((translateResources "b" "" ""
        (dirRes :: List.replicate 1000 fileRes)).contents.length > 1000) = false := by
      rw [hlen]; decide
    dsimp only [Option.map, Option.getD]
    rw [h1, h2]

theorem listBucket_truncation_claim_witness :
    handleListBucket "b" "" "" none 207 [dirRes, fileRes] "" =
      (200, some ⟨"b", "", "", 1000, false, [⟨"k.txt", "", "", 1, "STANDARD"⟩], []⟩) :=
  (listBucket_truncation_claim.1 "b" "" "" none 207 [dirRes, fileRes] "" [dirRes, fileRes]
      (propfindResult_ok _ 207 (by decide))).trans (by decide)

/-- C9: an upstream PROPFIND status of 404 makes propfind return an
empty resource list, and handleListBucket then answers 200 with an
empty ListBucketResult (no contents, no common prefixes, isTruncated
false) rather than NoSuchBucket or any error. -/
theorem listBucket_upstream404_claim (bucket pfx delimiter : String)
    (maxKeysParam : Option Nat) (parsed : List WebDAVResource) (origin : String) :
    propfindResult 404 parsed = Except.ok ([] : List WebDAVResource) ∧
    handleListBucket bucket pfx delimiter maxKeysParam 404 parsed origin =
      (200, some ⟨bucket, pfx, delimiter, maxKeysParam.getD 1000, false, [], []⟩) := by
  have h404 : propfindResult 404 parsed = Except.ok ([] : List WebDAVResource) := by
    simp [propfindResult, statusOk]
  refine ⟨h404, ?_⟩
  simp only [handleListBucket, h404]
  dsimp only [translateResources, List.drop, List.foldl, jsSort]
  simp

/-! ## C3: MKCOL failures during PutObject ancestor creation -/

/-- An upstream oracle where every HEAD misses, every MKCOL fails with
500, and the PUT succeeds with 201. -/
def davEnvC3 : DavEnv := ⟨fun _ => 404, fun _ => 500, fun _ => 201⟩

/-- C3 counterexample: with every MKCOL failing with status 500 (not
405), handlePutObject still issues the PUT of the target path and
answers 200, so a non-405 MKCOL failure does not abort the PUT with
InternalError before the upload. -/
theorem putObject_mkcol_counterexample :
    davEnvC3.mkcolStatus "/bucket/" = 500 ∧
    statusOk 500 = false ∧
    DavCall.mkcol "/bucket/" ∈ (handlePutObject davEnvC3 true "bucket" "dir/file.txt").1 ∧
    DavCall.put "bucket/dir/file.txt" ∈ (handlePutObject davEnvC3 true "bucket" "dir/file.txt").1 ∧
    (handlePutObject davEnvC3 true "bucket" "dir/file.txt").2 = ⟨200, none⟩ := by
  decide

/-- C3 amended: a 405 MKCOL failure is non-fatal, and so is every other
MKCOL failure — ancestor-creation outcomes are only logged; the
response of handlePutObject depends solely on the PUT status of the
target path, the PUT of the target is always attempted when a body is
present, and an ok PUT status yields 200. -/
theorem putObject_mkcol_nonfatal :
    (∀ (e1 e2 : DavEnv) (bucket key : String), e1.putStatus = e2.putStatus →
      (handlePutObject e1 true bucket key).2 = (handlePutObject e2 true bucket key).2) ∧
    (∀ (env : DavEnv) (bucket key : String),
      DavCall.put (buildWebDAVPath bucket key) ∈ (handlePutObject env true bucket key).1) ∧
    (∀ (env : DavEnv) (bucket key : String),
      statusOk (env.putStatus (buildWebDAVPath bucket key)) = true →
      (handlePutObject env true bucket key).2 = ⟨200, none⟩) := by
  refine ⟨?_, ?_, ?_⟩
  · intro e1 e2 bucket key h
    simp only [handlePutObject, Bool.not_true, Bool.false_eq_true, if_false, h]
  · intro env bucket key
    simp [handlePutObject]
  · intro env bucket key h
    simp [handlePutObject, h]

theorem putObject_mkcol_nonfatal_witness :
    (handlePutObject davEnvC3 true "b" "k").2 =
      (handlePutObject ⟨fun _ => 200, fun _ => 405, fun _ => 201⟩ true "b" "k").2 ∧
    DavCall.put "b/k" ∈ (handlePutObject davEnvC3 true "b" "k").1 ∧
    (handlePutObject davEnvC3 true "b" "k").2 = ⟨200, none⟩ :=
  ⟨putObject_mkcol_nonfatal.1 davEnvC3 ⟨fun _ => 200, fun _ => 405, fun _ => 201⟩ "b" "k" rfl,
   putObject_mkcol_nonfatal.2.1 davEnvC3 "b" "k",
   putObject_mkcol_nonfatal.2.2 davEnvC3 "b" "k" (by decide)⟩

/-! ## C8: idempotent DeleteObject -/

/-- C8: DeleteObject answers 204 both on an ok upstream DELETE status
and on upstream 404, and any other upstream status yields
InternalError. -/
theorem deleteObject_idempotent_claim :
    (∀ s : Nat, statusOk s = true ∨ s = 404 → handleDeleteObject s = ⟨204, none⟩) ∧
    (∀ s : Nat, statusOk s = false → s ≠ 404 →
      handleDeleteObject s = ⟨500, some "InternalError"⟩) := by
  constructor
  · intro s hs
    rcases hs with h | h
    · simp [handleDeleteObject, h]
    · simp [handleDeleteObject, h, statusOk]
  · intro s h1 h2
    simp [handleDeleteObject, h1, h2]

theorem deleteObject_idempotent_claim_witness :
    handleDeleteObject 204 = ⟨204, none⟩ ∧
    handleDeleteObject 404 = ⟨204, none⟩ ∧
    handleDeleteObject 503 = ⟨500, some "InternalError"⟩ :=
  ⟨deleteObject_idempotent_claim.1 204 (Or.inl (by decide)),
   deleteObject_idempotent_claim.1 404 (Or.inr rfl),
   deleteObject_idempotent_claim.2 503 (by decide) (by decide)⟩

/-! ## C4: request timestamp resolution -/

/-- C4: verification takes the timestamp from a truthy x-amz-date
header as-is; otherwise it converts an RFC-7231 Date header to the
compact AWS form, rejecting when the conversion fails; and it rejects
when neither header is present. A failed resolution surfaces as the
rejection of verifySignature once the credential guards pass. -/
theorem verify_date_resolution_claim :
    (∀ amzDate dateHeader : Option String, truthy amzDate = true →
      resolveRequestDateTime amzDate dateHeader = .ok (amzDate.getD "")) ∧
    (∀ (amzDate dateHeader : Option String) (s : String), truthy amzDate = false →
      truthy dateHeader = true →
      convertToAwsDateFormat (dateHeader.getD "") = some s →
      resolveRequestDateTime amzDate dateHeader = .ok s) ∧
    (∀ amzDate dateHeader : Option String, truthy amzDate = false →
      truthy dateHeader = true →
      convertToAwsDateFormat (dateHeader.getD "") = none →
      resolveRequestDateTime amzDate dateHeader = .error "Invalid Date header format") ∧
    (∀ amzDate dateHeader : Option String, truthy amzDate = false →
      truthy dateHeader = false →
      resolveRequestDateTime amzDate dateHeader = .error "Missing date header") ∧
    (∀ (hmac : List Nat → List Nat → List Nat) (sha256Bytes : List Nat → List Nat)
        (comps : SignatureComponents) (req : S3Request) (env : Env)
        (bodyHash : Option String) (e : String),
      comps.accessKeyId = env.S3_ACCESS_KEY_ID →
      comps.region = env.S3_REGION →
      comps.service = "s3" →
      resolveRequestDateTime (req.getHeader "x-amz-date") (req.getHeader "date") = .error e →
      verifySignature hmac sha256Bytes comps req env bodyHash = ⟨false, some e⟩) := by
  refine ⟨?_, ?_, ?_, ?_, ?_⟩
  · intro amzDate dateHeader h
    simp [resolveRequestDateTime, h]
  · intro amzDate dateHeader s h1 h2 hconv
    simp [resolveRequestDateTime, h1, h2, hconv]
  · intro amzDate dateHeader h1 h2 hconv
    simp [resolveRequestDateTime, h1, h2, hconv]
  · intro amzDate dateHeader h1 h2
    simp [resolveRequestDateTime, h1, h2]
  · intro hmac sha256Bytes comps req env bodyHash e h1 h2 h3 hres
    simp [verifySignature, h1, h2, h3, hres]

theorem verify_date_resolution_claim_witness :
    resolveRequestDateTime (some "20200101T000000Z") none = .ok "20200101T000000Z" ∧
    resolveRequestDateTime none (some "Wed, 01 Jan 2020 00:00:00 GMT") = .ok "20200101T000000Z" ∧
    resolveRequestDateTime none (some "not a date") = .error "Invalid Date header format" ∧
    resolveRequestDateTime none none = .error "Missing date header" :=
  ⟨verify_date_resolution_claim.1 (some "20200101T000000Z") none (by decide),
   verify_date_resolution_claim.2.1 none (some "Wed, 01 Jan 2020 00:00:00 GMT")
     "20200101T000000Z" (by decide) (by decide) (by decide),
   verify_date_resolution_claim.2.2.1 none (some "not a date") (by decide) (by decide)
     (by decide),
   verify_date_resolution_claim.2.2.2.1 none none (by decide) (by decide)⟩

/-! ## C5: canonical headers -/

/-- C5: every canonical headers line is the lowercased signed header
name, a colon, and the value trimmed with internal whitespace runs
collapsed to one space; the canonical headers block carries a trailing
newline, and in the canonical request that block (newline included)
immediately precedes the signed-headers list. -/
theorem canonical_headers_claim :
    (∀ (getHeader : String → Option String) (names : List String) (lines : List String),
      buildCanonicalHeaders getHeader names = .ok lines →
      lines = names.map
        (fun n => strToLower n ++ ":" ++ normalizeHeaderValue ((getHeader n).getD ""))) ∧
    (∀ lines : List String, ∃ s : String, canonicalHeadersString lines = s ++ "\n") ∧
    (∀ (m u q shs ph : String) (lines : List String),
      createCanonicalRequest m u q (canonicalHeadersString lines) shs ph =
        m ++ "\n" ++ u ++ "\n" ++ q ++ "\n" ++
          String.intercalate "\n" lines ++ "\n" ++ shs ++ "\n" ++ ph) := by
  refine ⟨?_, ?_, ?_⟩
  · intro getHeader names
    induction names with
    | nil =>
      intro lines h
      simp only [buildCanonicalHeaders] at h
      cases h
      simp
    | cons n ns ih =>
      intro lines h
      simp only [buildCanonicalHeaders] at h
      rcases hn : getHeader n with _ | v
      · rw [hn] at h
        exact absurd h (by simp)
      · rw [hn] at h
        rcases hr : buildCanonicalHeaders getHeader ns with e | rest
        · rw [hr] at h
          exact absurd h (by simp)
        · rw [hr] at h
          simp only [Except.ok.injEq] at h
          subst h
          rw [List.map_cons, ih rest hr, hn]
          rfl
  · intro lines
    exact ⟨String.intercalate "\n" lines, rfl⟩
  · intro m u q shs ph lines
    simp only [createCanonicalRequest, canonicalHeadersString, String.intercalate,
      String.intercalate.go]
    simp [String.append_assoc]

theorem canonical_headers_claim_witness :
    buildCanonicalHeaders (fun _ => some "  a  b ") ["X-Test"] = .ok ["x-test:a b"] ∧
    ["x-test:a b"] = ["X-Test"].map
      (fun n => strToLower n ++ ":" ++
        normalizeHeaderValue (((fun _ => some "  a  b ") n).getD "")) :=
  ⟨rfl,
   canonical_headers_claim.1 (fun _ => some "  a  b ") ["X-Test"] ["x-test:a b"] rfl⟩

/-! ## C1: signing-key chain and signature comparison -/

set_option maxRecDepth 2048 in
/-- C1 amended: getSigningKey is the four-level HMAC-SHA256 chain; the
hex rendering uses lowercase digits; and once the credential guards,
date resolution and canonical-headers construction succeed,
verifySignature accepts exactly when the recomputed hex signature
equals the claimed one byte-for-byte, rejecting otherwise with the
error string Signature mismatch (capital S in the source). -/
theorem sigv4_chain_mismatch_amended :
    (∀ (hmac : List Nat → List Nat → List Nat) (secretKey dateStamp region service : String),
      getSigningKey hmac secretKey dateStamp region service =
        hmac (hmac (hmac (hmac (utf8Bytes ("AWS4" ++ secretKey)) (utf8Bytes dateStamp))
          (utf8Bytes region)) (utf8Bytes service)) (utf8Bytes "aws4_request")) ∧
    (∀ b : Nat, b < 256 → ∀ c ∈ (byteToHex b).data, c ∈ ("0123456789abcdef").data) ∧
    (∀ (hmac : List Nat → List Nat → List Nat) (sha256Bytes : List Nat → List Nat)
        (comps : SignatureComponents) (req : S3Request) (env : Env)
        (bodyHash : Option String) (requestDateTime : String) (lines : List String),
      comps.accessKeyId = env.S3_ACCESS_KEY_ID →
      comps.region = env.S3_REGION →
      comps.service = "s3" →
      resolveRequestDateTime (req.getHeader "x-amz-date") (req.getHeader "date") =
        .ok requestDateTime →
      buildCanonicalHeaders req.getHeader comps.signedHeaders = .ok lines →
      ((verifySignature hmac sha256Bytes comps req env bodyHash = ⟨true, none⟩ ↔
          calculatedSignature hmac sha256Bytes env comps req bodyHash requestDateTime lines =
            comps.signature) ∧
        (calculatedSignature hmac sha256Bytes env comps req bodyHash requestDateTime lines ≠
            comps.signature →
          verifySignature hmac sha256Bytes comps req env bodyHash =
            ⟨false, some "Signature mismatch"⟩))) := by
  refine ⟨fun _ _ _ _ _ => rfl, by decide, ?_⟩
  intro hmac sha256Bytes comps req env bodyHash requestDateTime lines h1 h2 h3 hres hch
  constructor
  · constructor
    · intro hv
      by_contra hne
      simp [verifySignature, h1, h2, h3, hres, hch, hne] at hv
    · intro hsig
      simp [verifySignature, h1, h2, h3, hres, hch, hsig]
  · intro hne
    simp [verifySignature, h1, h2, h3, hres, hch, hne]

/-- Constant HMAC primitive used by the concrete SigV4 instances. -/
def hmacConstC1 : List Nat → List Nat → List Nat := fun _ _ => [0]

/-- Constant SHA-256 primitive used by the concrete SigV4 instances. -/
def shaConstC1 : List Nat → List Nat := fun _ => [0]

/-- Concrete environment for the SigV4 instances. -/
def envC1 : Env := ⟨"AK", "SECRET", "r1"⟩

/-- Concrete request for the SigV4 instances: a GET of the root with
only an x-amz-date header. -/
def reqC1 : S3Request :=
  ⟨"GET", "/", [], fun n => if n = "x-amz-date" then some "20200101T000000Z" else none⟩

/-- Parsed components whose claimed signature matches the recomputed
one under the constant primitives. -/
def compsOkC1 : SignatureComponents :=
  ⟨"AWS4-HMAC-SHA256", "AK/20200101/r1/s3/aws4_request", [], "00", "AK", "20200101", "r1", "s3"⟩

/-- Parsed components whose claimed signature does not match. -/
def compsBadC1 : SignatureComponents :=
  ⟨"AWS4-HMAC-SHA256", "AK/20200101/r1/s3/aws4_request", [], "ff", "AK", "20200101", "r1", "s3"⟩

theorem sigv4_chain_mismatch_amended_witness :
    verifySignature hmacConstC1 shaConstC1 compsOkC1 reqC1 envC1 none = ⟨true, none⟩ :=
  ((sigv4_chain_mismatch_amended.2.2 hmacConstC1 shaConstC1 compsOkC1 reqC1 envC1 none
      "20200101T000000Z" [] rfl rfl rfl rfl rfl).1).mpr rfl

/-- C1 counterexample: on a signature mismatch the source rejects with
the error string Signature mismatch (capital S), not the lowercase
signature mismatch the claim quotes. -/
theorem sigv4_mismatch_reason_counterexample :
    verifySignature hmacConstC1 shaConstC1 compsBadC1 reqC1 envC1 none =
      ⟨false, some "Signature mismatch"⟩ ∧
    some "Signature mismatch" ≠ some "signature mismatch" :=
  ⟨rfl, by decide⟩

/-! ## C2: canonical query string ordering -/

/-- C2 (code-bug evidence): the canonical query string of the source
sorts keys with localeCompare, which orders the keys B and a as a
before B, while byte-lexicographic order (what AWS SigV4 prescribes
and the claim states) puts B first; the two canonicalisations differ
on this input. -/
theorem canonical_query_locale_vs_bytelex :
    canonicalQueryString [("B", "1"), ("a", "2")] = "a=2&B=1" ∧
    byteLexQueryString [("B", "1"), ("a", "2")] = "B=1&a=2" ∧
    canonicalQueryString [("B", "1"), ("a", "2")] ≠
      byteLexQueryString [("B", "1"), ("a", "2")] :=
  ⟨rfl, rfl, by decide⟩

/-! ## C10: presigned URL shape -/

/-- C10: for every credential, bucket, key, expiry and timestamp the
presigned URL is the https URL of the AWS endpoint host
bucket.s3.region.amazonaws.com, its path is the per-segment
URI-encoded key prefixed with a slash, and its query string carries
X-Amz-Algorithm, X-Amz-Credential, X-Amz-Date, X-Amz-Expires and
X-Amz-SignedHeaders=host in that order, with X-Amz-Signature appended
last. -/
theorem presigned_url_shape_claim
    (hmac : List Nat → List Nat → List Nat) (sha256Bytes : List Nat → List Nat)
    (accessKeyId secretAccessKey region bucket key : String) (expiresIn : Nat)
    (amzDate : String) :
    ∃ sig : String,
      createPresignedUrl hmac sha256Bytes accessKeyId secretAccessKey region bucket key
          expiresIn amzDate =
        "https://" ++ (bucket ++ ".s3." ++ region ++ ".amazonaws.com") ++
          ("/" ++ String.intercalate "/"
            ((strSplitOnChar '/' key).map (fun part => uriEncode part true))) ++
          "?" ++
          ("X-Amz-Algorithm=AWS4-HMAC-SHA256" ++
            "&" ++ ("X-Amz-Credential=" ++ accessKeyId ++ "/" ++ amzDate.take 8 ++ "/" ++
              region ++ "/s3/aws4_request") ++
            "&" ++ ("X-Amz-Date=" ++ amzDate) ++
            "&" ++ ("X-Amz-Expires=" ++ toString expiresIn) ++
            "&" ++ "X-Amz-SignedHeaders=host") ++
          "&X-Amz-Signature=" ++ sig := by
  refine ⟨arrayBufferToHex (hmac
    (getSigningKey hmac secretAccessKey (amzDate.take 8) region "s3")
    (utf8Bytes (String.intercalate "\n"
      ["AWS4-HMAC-SHA256", amzDate,
        amzDate.take 8 ++ "/" ++ region ++ "/s3/aws4_request",
        sha256Hex sha256Bytes (String.intercalate "\n"
          ["GET",
            "/" ++ String.intercalate "/"
              ((strSplitOnChar '/' key).map (fun part => uriEncode part true)),
            String.intercalate "&"
              ["X-Amz-Algorithm=AWS4-HMAC-SHA256",
                "X-Amz-Credential=" ++ accessKeyId ++ "/" ++ amzDate.take 8 ++ "/" ++
                  region ++ "/s3/aws4_request",
                "X-Amz-Date=" ++ amzDate,
                "X-Amz-Expires=" ++ toString expiresIn,
                "X-Amz-SignedHeaders=host"],
            "host:" ++ (bucket ++ ".s3." ++ region ++ ".amazonaws.com") ++ "\n",
            "host", "UNSIGNED-PAYLOAD"])]))), ?_⟩
  simp only [createPresignedUrl, String.intercalate, String.intercalate.go]
